import Mathlib

/-!
Violation builder (`src/pkg/violation/violation.go`).

A shallow embedding of `builder.ProcessViolation`, `builder.IsActive`,
`builder.Patch` and `builder.Create`, followed by the properties of the
reconciliation loop.

Conventions of the embedding:

* a Go `error` result is an `Option Err` (`none` is `nil`); a Go `(value, error)`
  result whose value is used is an `Except Err value`;
* the collaborators reached through the fields of `builder` (`controller`,
  `kubeClient`) and the library calls of `Patch` (`json.Marshal`,
  `jsonpatch.CreateMergePatch`) are the fields of `Collaborators`; within one
  call they answer as functions of their arguments;
* every observable effect (`eventBuilder.AddEvent`, `utilruntime.HandleError`,
  the invocation of `b.Patch`, `controller.PatchPolicy`) is appended to a `Trace`
  that is threaded through the code.
-/

namespace ViolationBuilder

/-- The message carried by a Go `error`. -/
abbrev Err := String

/-- Serialised JSON (`[]byte`). -/
abbrev Bytes := String

/-- Modelled from the spec: the type `types.Violation` is declared in
`pkg/apis/policy/v1alpha1`; the fields are the ones the spec lists and
`ProcessViolation` reads and writes. -/
structure Violation where
  Kind : String
  Resource : String
  Rule : String
  Reason : String
  Message : String
deriving DecidableEq, Repr

/-- Modelled from the spec: the type `utils.ViolationInfo` is declared in
`pkg/violation/utils`; the input DTO, the fields of a violation plus the name
of the owning policy. -/
structure ViolationInfo where
  Policy : String
  Kind : String
  Resource : String
  Rule : String
  Reason : String
  Message : String
deriving DecidableEq, Repr

/-- Modelled from the spec: the type `eventutils.EventInfo` is declared in
`pkg/event/utils`; the record given to `eventBuilder.AddEvent`. -/
structure EventInfo where
  Kind : String
  Resource : String
  Rule : String
  Reason : String
  Message : String
deriving DecidableEq, Repr

/-- Modelled from the spec: the field `PolicyViolation` of `types.Policy`,
holding the ordered sequence `Violations`. -/
structure PolicyViolation where
  Violations : List Violation
deriving DecidableEq, Repr

/-- Modelled from the spec: the type `types.Policy` is declared in
`pkg/apis/policy/v1alpha1`; a policy is identified by `Name` and owns its
violation list. -/
structure Policy where
  Name : String
  PolicyViolation : PolicyViolation
deriving DecidableEq, Repr

/-- The method `policy.DeepCopy()`: a value copy. -/
def Policy.DeepCopy (p : Policy) : Policy := p

/-- The services a `builder` reaches: `controller.GetPolicy`,
`controller.PatchPolicy`, `kubeClient.GetResource` (only its error is looked
at), `json.Marshal` and `jsonpatch.CreateMergePatch`. -/
structure Collaborators where
  GetPolicy : String → Except Err Policy
  PatchPolicy : String → Bytes → Option Err
  GetResource : String → String → Option Err
  Marshal : Policy → Except Err Bytes
  CreateMergePatch : Bytes → Bytes → Except Err Bytes

/-- The effects of a call, each list in call order. -/
structure Trace where
  events : List EventInfo
  handled : List Err
  patches : List (Policy × Policy)
  patchPolicyCalls : List (String × Bytes)
deriving DecidableEq, Repr

/-- No effect yet. -/
def Trace.empty : Trace := ⟨[], [], [], []⟩

/-- The call `b.eventBuilder.AddEvent(e)`. -/
def Trace.AddEvent (t : Trace) (e : EventInfo) : Trace :=
  { t with events := t.events ++ [e] }

/-- The call `utilruntime.HandleError(err)`. -/
def Trace.HandleError (t : Trace) (err : Err) : Trace :=
  { t with handled := t.handled ++ [err] }

/-- Several `utilruntime.HandleError` calls in a row. -/
def Trace.HandleErrors (t : Trace) (errs : List Err) : Trace :=
  { t with handled := t.handled ++ errs }

/-- Go: `func (b *builder) IsActive(kind string, resource string) (bool, error)`. -/
def IsActive (b : Collaborators) (kind resource : String) (t : Trace) :
    (Bool × Option Err) × Trace :=
  match b.GetResource kind resource with
  | some err =>
    ((false, some err), t.HandleError ("unable to get resource " ++ resource ++ " "))
  | none => ((true, none), t)

/-- Go: `func (b *builder) Patch(policy *types.Policy, updatedPolicy *types.Policy) error`. -/
def Patch (b : Collaborators) (policy updatedPolicy : Policy) (t : Trace) :
    Option Err × Trace :=
  match b.Marshal policy with
  | .error err => (some err, t)
  | .ok originalData =>
    match b.Marshal updatedPolicy with
    | .error err => (some err, t)
    | .ok modifiedData =>
      match b.CreateMergePatch originalData modifiedData with
      | .error err => (some err, t)
      | .ok patchBytes =>
        let t1 := { t with patchPolicyCalls := t.patchPolicyCalls ++ [(policy.Name, patchBytes)] }
        match b.PatchPolicy policy.Name patchBytes with
        | some err => (some err, t1)
        | none => (none, t1)

/-- The condition of the `if` at lines 85-87: the entry carries the tuple of
`info`. -/
def sameTuple (violation : Violation) (info : ViolationInfo) : Bool :=
  violation.Kind == info.Kind &&
    violation.Resource == info.Resource &&
    violation.Rule == info.Rule

/-- The `for _, violation := range ...` loop of `ProcessViolation` (lines
66-92): the entries still to visit, the slice `modifiedViolations` built so far
and the trace. -/
def rangeLoop (b : Collaborators) (info : ViolationInfo) :
    List Violation → List Violation → Trace → List Violation × Trace
  | [], modifiedViolations, t => (modifiedViolations, t)
  | violation :: rest, modifiedViolations, t =>
    match IsActive b info.Kind info.Resource t with
    | ((_, some err), t1) =>
      rangeLoop b info rest modifiedViolations (t1.HandleError err)
    | ((ok, none), t1) =>
      if !ok then
        rangeLoop b info rest modifiedViolations
          (t1.AddEvent
            { Kind := "Policy", Resource := info.Resource, Rule := info.Rule,
              Reason := info.Reason, Message := info.Message })
      else
        let violation1 :=
          if sameTuple violation info then
            { violation with Reason := info.Reason, Message := info.Message }
          else violation
        rangeLoop b info rest (modifiedViolations ++ [violation1]) t1

/-- Go: `func (b *builder) ProcessViolation(info utils.ViolationInfo) error`. -/
def ProcessViolation (b : Collaborators) (info : ViolationInfo) (t : Trace) :
    Option Err × Trace :=
  match b.GetPolicy info.Policy with
  | .error err => (some err, t.HandleError err)
  | .ok policy =>
    let modifiedPolicy := policy.DeepCopy
    let r := rangeLoop b info modifiedPolicy.PolicyViolation.Violations [] t
    let modifiedPolicy1 : Policy :=
      { modifiedPolicy with
        PolicyViolation := { modifiedPolicy.PolicyViolation with Violations := r.1 } }
    Patch b policy modifiedPolicy1
      { r.2 with patches := r.2.patches ++ [(policy, modifiedPolicy1)] }

/-- Go: `func (b *builder) Create(info utils.ViolationInfo) error`. -/
def Create (b : Collaborators) (info : ViolationInfo) (t : Trace) :
    Option Err × Trace :=
  match ProcessViolation b info t with
  | (some err, t1) => (some err, t1)
  | (none, t1) => (none, t1)

/-- The policy `p` with its violation list replaced by `vs` (line 93). -/
def Policy.withViolations (p : Policy) (vs : List Violation) : Policy :=
  { p with PolicyViolation := { p.PolicyViolation with Violations := vs } }

/-- The violation lists handed to `b.Patch` (the second argument's list), in
call order. -/
def Trace.handed (t : Trace) : List (List Violation) :=
  t.patches.map fun p => p.2.PolicyViolation.Violations

/-- What line 88-89 leave of an entry: the stored entry with `Reason` and
`Message` taken from `info`. -/
def Violation.updated (violation : Violation) (info : ViolationInfo) : Violation :=
  { Kind := violation.Kind, Resource := violation.Resource, Rule := violation.Rule,
    Reason := info.Reason, Message := info.Message }

/-- The violation a report describes: the fields of `info` without the policy
name. -/
def ViolationInfo.toViolation (info : ViolationInfo) : Violation :=
  { Kind := info.Kind, Resource := info.Resource, Rule := info.Rule,
    Reason := info.Reason, Message := info.Message }

/-- The (kind, resource, rule) tuple of an entry. -/
def Violation.key (violation : Violation) : String × String × String :=
  (violation.Kind, violation.Resource, violation.Rule)

/-- A stand-in for `json.Marshal` on sample data: the name and the fields of
every entry, separated by bars. -/
def sampleMarshal (p : Policy) : Bytes :=
  p.Name ++ "|" ++ String.intercalate "|"
    (p.PolicyViolation.Violations.map fun v =>
      v.Kind ++ "," ++ v.Resource ++ "," ++ v.Rule ++ "," ++ v.Reason ++ "," ++ v.Message)

/-- The sample policy `p1` holding `stored`. -/
def samplePolicy (stored : List Violation) : Policy :=
  { Name := "p1", PolicyViolation := { Violations := stored } }

/-- A sample cluster: the policy `p1` holds `stored`, the resources listed in
`present` exist, every other lookup fails, and the store accepts each patch. -/
def sampleBuilder (stored : List Violation) (present : List (String × String)) :
    Collaborators where
  GetPolicy := fun name =>
    if name = "p1" then .ok (samplePolicy stored) else .error "policy not found"
  PatchPolicy := fun _ _ => none
  GetResource := fun kind resource =>
    if (kind, resource) ∈ present then none else some "resource not found"
  Marshal := fun p => .ok (sampleMarshal p)
  CreateMergePatch := fun _ modifiedData => .ok modifiedData

/-- The sample cluster with a store that rejects every patch. -/
def rejectingBuilder (stored : List Violation) (present : List (String × String)) :
    Collaborators :=
  { sampleBuilder stored present with PatchPolicy := fun _ _ => some "conflict" }

/-- The sample cluster with a serialiser that fails on every policy. -/
def unmarshalableBuilder (stored : List Violation) (present : List (String × String)) :
    Collaborators :=
  { sampleBuilder stored present with Marshal := fun _ => .error "unsupported value" }

/-- The stored entry of the running example. -/
def sampleStored : Violation :=
  { Kind := "Pod", Resource := "ns/a", Rule := "rule1", Reason := "r1", Message := "m1" }

/-- The report of the running example. -/
def sampleInfo : ViolationInfo :=
  { Policy := "p1", Kind := "Pod", Resource := "ns/a", Rule := "rule1",
    Reason := "r2", Message := "m2" }

/-- A second stored entry, for another resource and rule. -/
def sampleOther : Violation :=
  { Kind := "Pod", Resource := "ns/b", Rule := "rule2", Reason := "r0", Message := "m0" }

/-- What the loop body appends for an entry that is kept. -/
def kept (info : ViolationInfo) (violation : Violation) : Violation :=
  if sameTuple violation info then violation.updated info else violation

/-! ## The loop -/

theorem sameTuple_iff (violation : Violation) (info : ViolationInfo) :
    sameTuple violation info = true ↔
      violation.Kind = info.Kind ∧ violation.Resource = info.Resource ∧
        violation.Rule = info.Rule := by
  simp [sameTuple, and_assoc]

theorem updated_eq_with (violation : Violation) (info : ViolationInfo) :
    ({ violation with Reason := info.Reason, Message := info.Message } : Violation) =
      violation.updated info := rfl

theorem IsActive_true_iff (b : Collaborators) (kind resource : String) (t : Trace) :
    (IsActive b kind resource t).1 = (true, none) ↔ b.GetResource kind resource = none := by
  unfold IsActive
  cases b.GetResource kind resource <;> simp

theorem rangeLoop_active (b : Collaborators) (info : ViolationInfo)
    (h : b.GetResource info.Kind info.Resource = none) (vs acc : List Violation) (t : Trace) :
    rangeLoop b info vs acc t = (acc ++ vs.map (kept info), t) := by
  induction vs generalizing acc t with
  | nil => simp [rangeLoop]
  | cons v rest ih =>
    simp only [rangeLoop, IsActive, h, Bool.not_true, Bool.false_eq_true, if_false]
    rw [ih]
    simp [kept, updated_eq_with]

theorem rangeLoop_failing (b : Collaborators) (info : ViolationInfo) (err : Err)
    (h : b.GetResource info.Kind info.Resource = some err) (vs acc : List Violation)
    (t : Trace) :
    rangeLoop b info vs acc t =
      (acc, t.HandleErrors
        (vs.flatMap (fun _ => ["unable to get resource " ++ info.Resource ++ " ", err]))) := by
  induction vs generalizing acc t with
  | nil => cases t; simp [rangeLoop, Trace.HandleErrors]
  | cons v rest ih =>
    simp only [rangeLoop, IsActive, h]
    rw [ih]
    cases t
    simp [Trace.HandleError, Trace.HandleErrors]

/-! ## `Patch` and `ProcessViolation` -/

theorem Patch_fst (b : Collaborators) (policy updatedPolicy : Policy) (t t1 : Trace) :
    (Patch b policy updatedPolicy t).1 = (Patch b policy updatedPolicy t1).1 := by
  unfold Patch
  repeat' split
  all_goals rfl

theorem Patch_frame (b : Collaborators) (policy updatedPolicy : Policy) (t : Trace) :
    (Patch b policy updatedPolicy t).2.events = t.events ∧
      (Patch b policy updatedPolicy t).2.handled = t.handled ∧
      (Patch b policy updatedPolicy t).2.patches = t.patches := by
  unfold Patch
  repeat' split
  all_goals simp

theorem ProcessViolation_ok (b : Collaborators) (info : ViolationInfo) (t : Trace)
    (policy : Policy) (hget : b.GetPolicy info.Policy = .ok policy) :
    ProcessViolation b info t =
      Patch b policy
        (policy.withViolations (rangeLoop b info policy.PolicyViolation.Violations [] t).1)
        { (rangeLoop b info policy.PolicyViolation.Violations [] t).2 with
          patches := (rangeLoop b info policy.PolicyViolation.Violations [] t).2.patches ++
            [(policy, policy.withViolations
              (rangeLoop b info policy.PolicyViolation.Violations [] t).1)] } := by
  simp [ProcessViolation, hget, Policy.DeepCopy, Policy.withViolations]

/-- The outcome when the resource of the report is found. -/
theorem ProcessViolation_active (b : Collaborators) (info : ViolationInfo) (t : Trace)
    (policy : Policy) (hget : b.GetPolicy info.Policy = .ok policy)
    (hres : b.GetResource info.Kind info.Resource = none) :
    (ProcessViolation b info t).1 =
        (Patch b policy
          (policy.withViolations (policy.PolicyViolation.Violations.map (kept info))) t).1 ∧
      (ProcessViolation b info t).2.handed =
        t.handed ++ [policy.PolicyViolation.Violations.map (kept info)] ∧
      (ProcessViolation b info t).2.events = t.events ∧
      (ProcessViolation b info t).2.handled = t.handled := by
  rw [ProcessViolation_ok b info t policy hget, rangeLoop_active b info hres]
  refine ⟨?_, ?_, ?_, ?_⟩
  · simpa using Patch_fst b policy _ _ t
  · unfold Trace.handed
    rw [(Patch_frame b policy _ _).2.2]
    simp [Policy.withViolations]
  · rw [(Patch_frame b policy _ _).1]
  · rw [(Patch_frame b policy _ _).2.1]

/-- The outcome when the lookup of the report's resource fails. -/
theorem ProcessViolation_failing (b : Collaborators) (info : ViolationInfo) (t : Trace)
    (policy : Policy) (err : Err) (hget : b.GetPolicy info.Policy = .ok policy)
    (hres : b.GetResource info.Kind info.Resource = some err) :
    (ProcessViolation b info t).1 = (Patch b policy (policy.withViolations []) t).1 ∧
      (ProcessViolation b info t).2.handed = t.handed ++ [[]] ∧
      (ProcessViolation b info t).2.events = t.events ∧
      (ProcessViolation b info t).2.handled = t.handled ++
        policy.PolicyViolation.Violations.flatMap
          (fun _ => ["unable to get resource " ++ info.Resource ++ " ", err]) := by
  rw [ProcessViolation_ok b info t policy hget, rangeLoop_failing b info err hres]
  refine ⟨?_, ?_, ?_, ?_⟩
  · simpa using Patch_fst b policy _ _ t
  · unfold Trace.handed
    rw [(Patch_frame b policy _ _).2.2]
    simp [Policy.withViolations, Trace.HandleErrors]
  · rw [(Patch_frame b policy _ _).1]
    rfl
  · rw [(Patch_frame b policy _ _).2.1]
    rfl

theorem ProcessViolation_outcome (b : Collaborators) (info : ViolationInfo) (t : Trace)
    (policy : Policy) (hget : b.GetPolicy info.Policy = .ok policy) :
    ∃ out : List Violation,
      (ProcessViolation b info t).2.handed = t.handed ++ [out] ∧
      (∀ t1, (ProcessViolation b info t).1 =
        (Patch b policy (policy.withViolations out) t1).1) ∧
      (ProcessViolation b info t).2.events = t.events ∧
      (b.GetResource info.Kind info.Resource = none →
        out = policy.PolicyViolation.Violations.map (kept info)) ∧
      (b.GetResource info.Kind info.Resource ≠ none → out = []) := by
  cases hres : b.GetResource info.Kind info.Resource with
  | none =>
    obtain ⟨h1, h2, h3, _⟩ := ProcessViolation_active b info t policy hget hres
    refine ⟨_, h2, fun t1 => ?_, h3, fun _ => rfl, fun h => absurd rfl h⟩
    rw [h1]
    exact Patch_fst b policy _ t t1
  | some err =>
    obtain ⟨h1, h2, h3, _⟩ := ProcessViolation_failing b info t policy err hget hres
    refine ⟨_, h2, fun t1 => ?_, h3, fun h => by simp at h, fun _ => rfl⟩
    rw [h1]
    exact Patch_fst b policy _ t t1

theorem kept_key (info : ViolationInfo) (violation : Violation) :
    (kept info violation).key = violation.key := by
  unfold kept
  split <;> rfl

theorem sameTuple_kept (info : ViolationInfo) (violation : Violation) :
    sameTuple (kept info violation) info = sameTuple violation info := by
  unfold kept
  split <;> rfl

theorem kept_kept (info : ViolationInfo) (violation : Violation) :
    kept info (kept info violation) = kept info violation := by
  by_cases h : sameTuple violation info = true
  · have h1 : sameTuple (violation.updated info) info = true := h
    simp [kept, h, h1, Violation.updated]
  · simp [kept, h]

theorem ProcessViolation_patches (b : Collaborators) (info : ViolationInfo) (t : Trace)
    (policy : Policy) (hget : b.GetPolicy info.Policy = .ok policy) :
    ∃ out : List Violation,
      (ProcessViolation b info t).2.patches =
        t.patches ++ [(policy, policy.withViolations out)] ∧
      ∀ t1, (ProcessViolation b info t).1 =
        (Patch b policy (policy.withViolations out) t1).1 := by
  rw [ProcessViolation_ok b info t policy hget]
  cases hres : b.GetResource info.Kind info.Resource with
  | none =>
    rw [rangeLoop_active b info hres]
    refine ⟨_, ?_, fun t1 => Patch_fst b policy _ _ t1⟩
    rw [(Patch_frame b policy _ _).2.2]
  | some err =>
    rw [rangeLoop_failing b info err hres]
    refine ⟨_, ?_, fun t1 => Patch_fst b policy _ _ t1⟩
    rw [(Patch_frame b policy _ _).2.2]
    rfl

theorem ProcessViolation_error (b : Collaborators) (info : ViolationInfo) (t : Trace)
    (err : Err) (hget : b.GetPolicy info.Policy = .error err) :
    ProcessViolation b info t = (some err, t.HandleError err) := by
  simp [ProcessViolation, hget]

theorem ProcessViolation_apply (b : Collaborators) (info : ViolationInfo) (t : Trace)
    (policy : Policy) (hget : b.GetPolicy info.Policy = .ok policy) :
    ∃ (out : List Violation) (t1 : Trace),
      ProcessViolation b info t = Patch b policy (policy.withViolations out) t1 ∧
      t1.patchPolicyCalls = t.patchPolicyCalls ∧
      t1.patches = t.patches ++ [(policy, policy.withViolations out)] := by
  rw [ProcessViolation_ok b info t policy hget]
  cases hres : b.GetResource info.Kind info.Resource with
  | none =>
    rw [rangeLoop_active b info hres]
    exact ⟨_, _, rfl, rfl, rfl⟩
  | some err =>
    rw [rangeLoop_failing b info err hres]
    exact ⟨_, _, rfl, rfl, rfl⟩

theorem Create_eq (b : Collaborators) (info : ViolationInfo) (t : Trace) :
    Create b info t = ProcessViolation b info t := by
  unfold Create
  split <;> simp_all

/-! ## Properties of the reconciliation -/

/-- C1 (update in place): when `GetPolicy` returns the policy, `IsActive` answers
`(true, nil)` for the resource of `info`, and the stored entry at index `i` has
the kind, resource and rule of `info`, the list handed to `Patch` has the
length of the stored list and its entry at `i` keeps kind, resource and rule
and carries the reason and message of `info`. -/
theorem update_in_place (b : Collaborators) (info : ViolationInfo) (t : Trace)
    (policy : Policy) (hget : b.GetPolicy info.Policy = .ok policy)
    (hact : (IsActive b info.Kind info.Resource t).1 = (true, none))
    (i : Nat) (hi : i < policy.PolicyViolation.Violations.length)
    (hkind : policy.PolicyViolation.Violations[i].Kind = info.Kind)
    (hresource : policy.PolicyViolation.Violations[i].Resource = info.Resource)
    (hrule : policy.PolicyViolation.Violations[i].Rule = info.Rule) :
    ∃ out : List Violation,
      (ProcessViolation b info t).2.handed = t.handed ++ [out] ∧
      out.length = policy.PolicyViolation.Violations.length ∧
      out[i]? = some
        { Kind := policy.PolicyViolation.Violations[i].Kind,
          Resource := policy.PolicyViolation.Violations[i].Resource,
          Rule := policy.PolicyViolation.Violations[i].Rule,
          Reason := info.Reason, Message := info.Message } := by
  have hres := (IsActive_true_iff b info.Kind info.Resource t).1 hact
  obtain ⟨out, h1, _, _, h4, _⟩ := ProcessViolation_outcome b info t policy hget
  refine ⟨out, h1, ?_, ?_⟩
  · rw [h4 hres, List.length_map]
  · have hs : sameTuple policy.PolicyViolation.Violations[i] info = true :=
      (sameTuple_iff _ _).2 ⟨hkind, hresource, hrule⟩
    rw [h4 hres, List.getElem?_map, List.getElem?_eq_getElem hi]
    simp [kept, hs, Violation.updated]

/-- The running example of C1: stored `[(Pod, ns/a, rule1, r1, m1)]`, report
`(Pod, ns/a, rule1, r2, m2)`, `ns/a` present. -/
theorem update_in_place_witness :
    (sampleBuilder [sampleStored] [("Pod", "ns/a")]).GetPolicy sampleInfo.Policy =
        .ok (samplePolicy [sampleStored]) ∧
      (IsActive (sampleBuilder [sampleStored] [("Pod", "ns/a")]) sampleInfo.Kind
        sampleInfo.Resource Trace.empty).1 = (true, none) ∧
      ∃ out : List Violation,
        (ProcessViolation (sampleBuilder [sampleStored] [("Pod", "ns/a")]) sampleInfo
          Trace.empty).2.handed = Trace.empty.handed ++ [out] ∧
        out.length = 1 ∧
        out[0]? = some
          { Kind := "Pod", Resource := "ns/a", Rule := "rule1", Reason := "r2",
            Message := "m2" } :=
  ⟨rfl, by decide,
    update_in_place (sampleBuilder [sampleStored] [("Pod", "ns/a")]) sampleInfo Trace.empty
      (samplePolicy [sampleStored]) rfl (by decide) 0 (by decide) rfl rfl rfl⟩

/-- C8 (frame): when `GetPolicy` returns the policy and `IsActive` answers
`(true, nil)` for the resource of `info`, the list handed to `Patch` has the
length of the stored list, and at every index the output entry is the stored
entry when its kind, resource or rule differs from the one of `info`, and
otherwise the stored entry with only reason and message replaced by those of
`info`. -/
theorem entries_copied_in_order (b : Collaborators) (info : ViolationInfo) (t : Trace)
    (policy : Policy) (hget : b.GetPolicy info.Policy = .ok policy)
    (hact : (IsActive b info.Kind info.Resource t).1 = (true, none)) :
    ∃ out : List Violation,
      (ProcessViolation b info t).2.handed = t.handed ++ [out] ∧
      out.length = policy.PolicyViolation.Violations.length ∧
      ∀ (i : Nat) (hi : i < policy.PolicyViolation.Violations.length),
        out[i]? = some
          (if policy.PolicyViolation.Violations[i].Kind = info.Kind ∧
              policy.PolicyViolation.Violations[i].Resource = info.Resource ∧
              policy.PolicyViolation.Violations[i].Rule = info.Rule then
            { policy.PolicyViolation.Violations[i] with
              Reason := info.Reason, Message := info.Message }
          else policy.PolicyViolation.Violations[i]) := by
  have hres := (IsActive_true_iff b info.Kind info.Resource t).1 hact
  obtain ⟨out, h1, _, _, h4, _⟩ := ProcessViolation_outcome b info t policy hget
  refine ⟨out, h1, ?_, ?_⟩
  · rw [h4 hres, List.length_map]
  · intro i hi
    rw [h4 hres, List.getElem?_map, List.getElem?_eq_getElem hi]
    simp only [Option.map_some', kept, sameTuple_iff, updated_eq_with]

/-- An instance of C8: stored `[(Pod, ns/b, rule2, r0, m0), (Pod, ns/a, rule1,
r1, m1)]`, report for `(Pod, ns/a, rule1)`, `ns/a` present. -/
theorem entries_copied_in_order_witness :
    (sampleBuilder [sampleOther, sampleStored] [("Pod", "ns/a")]).GetPolicy
        sampleInfo.Policy = .ok (samplePolicy [sampleOther, sampleStored]) ∧
      (IsActive (sampleBuilder [sampleOther, sampleStored] [("Pod", "ns/a")])
        sampleInfo.Kind sampleInfo.Resource Trace.empty).1 = (true, none) ∧
      ∃ out : List Violation,
        (ProcessViolation (sampleBuilder [sampleOther, sampleStored] [("Pod", "ns/a")])
          sampleInfo Trace.empty).2.handed = Trace.empty.handed ++ [out] ∧
        out.length = (samplePolicy [sampleOther, sampleStored]).PolicyViolation.Violations.length ∧
        ∀ (i : Nat)
          (hi : i < (samplePolicy [sampleOther, sampleStored]).PolicyViolation.Violations.length),
          out[i]? = some
            (if (samplePolicy [sampleOther, sampleStored]).PolicyViolation.Violations[i].Kind =
                  sampleInfo.Kind ∧
                (samplePolicy [sampleOther, sampleStored]).PolicyViolation.Violations[i].Resource =
                  sampleInfo.Resource ∧
                (samplePolicy [sampleOther, sampleStored]).PolicyViolation.Violations[i].Rule =
                  sampleInfo.Rule then
              { (samplePolicy [sampleOther, sampleStored]).PolicyViolation.Violations[i] with
                Reason := sampleInfo.Reason, Message := sampleInfo.Message }
            else (samplePolicy [sampleOther, sampleStored]).PolicyViolation.Violations[i]) :=
  ⟨rfl, by decide,
    entries_copied_in_order (sampleBuilder [sampleOther, sampleStored] [("Pod", "ns/a")])
      sampleInfo Trace.empty (samplePolicy [sampleOther, sampleStored]) rfl (by decide)⟩

/-- C4 (uniqueness): when `GetPolicy` returns a policy whose violation list has
no two entries with the same (kind, resource, rule), the list handed to `Patch`
has no two entries with the same (kind, resource, rule) either, whatever the
report and the answers of `GetResource`. -/
theorem uniqueness_preserved (b : Collaborators) (info : ViolationInfo) (t : Trace)
    (policy : Policy) (hget : b.GetPolicy info.Policy = .ok policy)
    (huniq : (policy.PolicyViolation.Violations.map Violation.key).Nodup) :
    ∃ out : List Violation,
      (ProcessViolation b info t).2.handed = t.handed ++ [out] ∧
      (out.map Violation.key).Nodup := by
  obtain ⟨out, h1, _, _, h4, h5⟩ := ProcessViolation_outcome b info t policy hget
  refine ⟨out, h1, ?_⟩
  by_cases hres : b.GetResource info.Kind info.Resource = none
  · rw [h4 hres, List.map_map]
    have hk : Violation.key ∘ kept info = Violation.key := funext (kept_key info)
    rw [hk]
    exact huniq
  · rw [h5 hres]
    exact List.nodup_nil

/-- An instance of C4 on the two-entry sample policy. -/
theorem uniqueness_preserved_witness :
    (sampleBuilder [sampleOther, sampleStored] [("Pod", "ns/a")]).GetPolicy
        sampleInfo.Policy = .ok (samplePolicy [sampleOther, sampleStored]) ∧
      ((samplePolicy [sampleOther, sampleStored]).PolicyViolation.Violations.map
        Violation.key).Nodup ∧
      ∃ out : List Violation,
        (ProcessViolation (sampleBuilder [sampleOther, sampleStored] [("Pod", "ns/a")])
          sampleInfo Trace.empty).2.handed = Trace.empty.handed ++ [out] ∧
        (out.map Violation.key).Nodup :=
  ⟨rfl, by decide,
    uniqueness_preserved (sampleBuilder [sampleOther, sampleStored] [("Pod", "ns/a")])
      sampleInfo Trace.empty (samplePolicy [sampleOther, sampleStored]) rfl (by decide)⟩

/-- C5 (idempotence): let a first run fetch `policy1` and a second run, with the
same report and the same answers of `GetResource`, fetch `policy2`. The first
run hands some list `out` to `Patch`, and if the list of `policy2` is that
`out`, the second run hands `out` to `Patch` again. -/
theorem idempotence (b1 b2 : Collaborators) (info : ViolationInfo) (t1 t2 : Trace)
    (policy1 policy2 : Policy) (hget1 : b1.GetPolicy info.Policy = .ok policy1)
    (hget2 : b2.GetPolicy info.Policy = .ok policy2)
    (horacle : b2.GetResource = b1.GetResource) :
    ∃ out : List Violation,
      (ProcessViolation b1 info t1).2.handed = t1.handed ++ [out] ∧
      (policy2.PolicyViolation.Violations = out →
        (ProcessViolation b2 info t2).2.handed = t2.handed ++ [out]) := by
  obtain ⟨out, h1, _, _, h4, h5⟩ := ProcessViolation_outcome b1 info t1 policy1 hget1
  obtain ⟨out2, k1, _, _, k4, k5⟩ := ProcessViolation_outcome b2 info t2 policy2 hget2
  refine ⟨out, h1, fun hstored => ?_⟩
  rw [k1]
  congr 2
  by_cases hres : b1.GetResource info.Kind info.Resource = none
  · rw [k4 (by rw [horacle]; exact hres), hstored, h4 hres, List.map_map]
    exact List.map_congr_left fun v _ => kept_kept info v
  · rw [k5 (by rw [horacle]; exact hres), h5 hres]

/-- An instance of C5: the running example, run on the stored list and then on
the list the first run produced. -/
theorem idempotence_witness :
    (sampleBuilder [sampleStored] [("Pod", "ns/a")]).GetPolicy sampleInfo.Policy =
        .ok (samplePolicy [sampleStored]) ∧
      (sampleBuilder [sampleStored.updated sampleInfo] [("Pod", "ns/a")]).GetPolicy
        sampleInfo.Policy = .ok (samplePolicy [sampleStored.updated sampleInfo]) ∧
      (sampleBuilder [sampleStored.updated sampleInfo] [("Pod", "ns/a")]).GetResource =
        (sampleBuilder [sampleStored] [("Pod", "ns/a")]).GetResource ∧
      (ProcessViolation (sampleBuilder [sampleStored] [("Pod", "ns/a")]) sampleInfo
        Trace.empty).2.handed = [[sampleStored.updated sampleInfo]] ∧
      ∃ out : List Violation,
        (ProcessViolation (sampleBuilder [sampleStored] [("Pod", "ns/a")]) sampleInfo
          Trace.empty).2.handed = Trace.empty.handed ++ [out] ∧
        ((samplePolicy [sampleStored.updated sampleInfo]).PolicyViolation.Violations = out →
          (ProcessViolation (sampleBuilder [sampleStored.updated sampleInfo] [("Pod", "ns/a")])
            sampleInfo Trace.empty).2.handed = Trace.empty.handed ++ [out]) :=
  ⟨rfl, rfl, rfl, by decide,
    idempotence (sampleBuilder [sampleStored] [("Pod", "ns/a")])
      (sampleBuilder [sampleStored.updated sampleInfo] [("Pod", "ns/a")]) sampleInfo
      Trace.empty Trace.empty (samplePolicy [sampleStored])
      (samplePolicy [sampleStored.updated sampleInfo]) rfl rfl rfl⟩

/-- C9 (no event): `IsActive` answers either `(true, nil)` or `(false, err)` with
a non-nil `err`, and neither `ProcessViolation` nor `Create` adds an event to
the trace, whatever the policy, the report and the cluster. -/
theorem no_event_emitted (b : Collaborators) (info : ViolationInfo) (t : Trace) :
    (∀ (kind resource : String) (t1 : Trace),
        (IsActive b kind resource t1).1 = (true, none) ∨
          ∃ err, (IsActive b kind resource t1).1 = (false, some err)) ∧
      (ProcessViolation b info t).2.events = t.events ∧
      (Create b info t).2.events = t.events := by
  have hpv : (ProcessViolation b info t).2.events = t.events := by
    cases hget : b.GetPolicy info.Policy with
    | error err => simp [ProcessViolation, hget, Trace.HandleError]
    | ok policy =>
      obtain ⟨_, _, _, h3, _⟩ := ProcessViolation_outcome b info t policy hget
      exact h3
  refine ⟨fun kind resource t1 => ?_, hpv, ?_⟩
  · unfold IsActive
    cases b.GetResource kind resource with
    | none => exact Or.inl rfl
    | some err => exact Or.inr ⟨err, rfl⟩
  · rw [← hpv]
    unfold Create
    split <;> simp_all

/-- C10 (all or nothing, keyed on the report): when `GetPolicy` returns the
policy, `ProcessViolation` calls `Patch` with some list `out` and returns what
`Patch` returns; if `GetResource` fails for the kind and resource of `info`
then `out` is empty, if it succeeds then `out` has the stored length and the
stored tuples in order; so the length of `out` is 0 or the stored length and
never exceeds the stored length. -/
theorem all_or_nothing (b : Collaborators) (info : ViolationInfo) (t : Trace)
    (policy : Policy) (hget : b.GetPolicy info.Policy = .ok policy) :
    ∃ out : List Violation,
      (ProcessViolation b info t).2.handed = t.handed ++ [out] ∧
      (∀ t1, (ProcessViolation b info t).1 =
        (Patch b policy (policy.withViolations out) t1).1) ∧
      (b.GetResource info.Kind info.Resource ≠ none → out = []) ∧
      (b.GetResource info.Kind info.Resource = none →
        out.length = policy.PolicyViolation.Violations.length ∧
          out.map Violation.key = policy.PolicyViolation.Violations.map Violation.key) ∧
      (out.length = 0 ∨ out.length = policy.PolicyViolation.Violations.length) ∧
      out.length ≤ policy.PolicyViolation.Violations.length := by
  obtain ⟨out, h1, h2, _, h4, h5⟩ := ProcessViolation_outcome b info t policy hget
  have hk : Violation.key ∘ kept info = Violation.key := funext (kept_key info)
  refine ⟨out, h1, h2, h5, fun hres => ?_, ?_, ?_⟩
  · rw [h4 hres, List.length_map, List.map_map, hk]
    exact ⟨rfl, rfl⟩
  · by_cases hres : b.GetResource info.Kind info.Resource = none
    · exact Or.inr (by rw [h4 hres, List.length_map])
    · exact Or.inl (by rw [h5 hres]; rfl)
  · by_cases hres : b.GetResource info.Kind info.Resource = none
    · rw [h4 hres, List.length_map]
    · rw [h5 hres]
      exact Nat.zero_le _

/-- An instance of C10: the stored list holds entries for `ns/b` and `ns/a`, only
`ns/b` is present, the report is for `ns/a`: the list handed to `Patch` is
empty and the call returns `nil`. -/
theorem all_or_nothing_witness :
    (sampleBuilder [sampleOther, sampleStored] [("Pod", "ns/b")]).GetPolicy
        sampleInfo.Policy = .ok (samplePolicy [sampleOther, sampleStored]) ∧
      (ProcessViolation (sampleBuilder [sampleOther, sampleStored] [("Pod", "ns/b")])
        sampleInfo Trace.empty).2.handed = [[]] ∧
      (ProcessViolation (sampleBuilder [sampleOther, sampleStored] [("Pod", "ns/b")])
        sampleInfo Trace.empty).1 = none ∧
      ∃ out : List Violation,
        (ProcessViolation (sampleBuilder [sampleOther, sampleStored] [("Pod", "ns/b")])
          sampleInfo Trace.empty).2.handed = Trace.empty.handed ++ [out] ∧
        (∀ t1, (ProcessViolation (sampleBuilder [sampleOther, sampleStored] [("Pod", "ns/b")])
            sampleInfo Trace.empty).1 =
          (Patch (sampleBuilder [sampleOther, sampleStored] [("Pod", "ns/b")])
            (samplePolicy [sampleOther, sampleStored])
            ((samplePolicy [sampleOther, sampleStored]).withViolations out) t1).1) ∧
        ((sampleBuilder [sampleOther, sampleStored] [("Pod", "ns/b")]).GetResource
            sampleInfo.Kind sampleInfo.Resource ≠ none → out = []) ∧
        ((sampleBuilder [sampleOther, sampleStored] [("Pod", "ns/b")]).GetResource
            sampleInfo.Kind sampleInfo.Resource = none →
          out.length = (samplePolicy [sampleOther, sampleStored]).PolicyViolation.Violations.length ∧
            out.map Violation.key =
              (samplePolicy [sampleOther, sampleStored]).PolicyViolation.Violations.map
                Violation.key) ∧
        (out.length = 0 ∨
          out.length = (samplePolicy [sampleOther, sampleStored]).PolicyViolation.Violations.length) ∧
        out.length ≤ (samplePolicy [sampleOther, sampleStored]).PolicyViolation.Violations.length :=
  ⟨rfl, by decide, by decide,
    all_or_nothing (sampleBuilder [sampleOther, sampleStored] [("Pod", "ns/b")]) sampleInfo
      Trace.empty (samplePolicy [sampleOther, sampleStored]) rfl⟩

/-- C7 (fetch and apply errors): when `GetPolicy` fails, `ProcessViolation`
returns that error, calls neither `Patch` nor `PatchPolicy` and adds no event.
When it succeeds, `ProcessViolation` calls `Patch` on the fetched policy and
the policy with the new list, and returns exactly what `Patch` returns, which
is: the error of `json.Marshal` on the fetched policy, else the error of
`json.Marshal` on the modified policy, else the error of `CreateMergePatch`
(in these three cases `PatchPolicy` is not called), else whatever the one
`PatchPolicy` call on the policy name and the patch bytes returns, `nil` when
the store accepts the patch. So the returned error is non-nil exactly when
`GetPolicy` fails or `Patch` fails, and `Create` returns what
`ProcessViolation` returns. -/
theorem errors_propagate (b : Collaborators) (info : ViolationInfo) (t : Trace) :
    (match b.GetPolicy info.Policy with
      | .error err =>
        (ProcessViolation b info t).1 = some err ∧
          (ProcessViolation b info t).2.patchPolicyCalls = t.patchPolicyCalls ∧
          (ProcessViolation b info t).2.patches = t.patches ∧
          (ProcessViolation b info t).2.events = t.events
      | .ok policy =>
        ∃ out : List Violation,
          (ProcessViolation b info t).2.patches =
            t.patches ++ [(policy, policy.withViolations out)] ∧
          (∀ t1, (ProcessViolation b info t).1 =
            (Patch b policy (policy.withViolations out) t1).1) ∧
          (match b.Marshal policy with
            | .error err =>
              (ProcessViolation b info t).1 = some err ∧
                (ProcessViolation b info t).2.patchPolicyCalls = t.patchPolicyCalls
            | .ok originalData =>
              match b.Marshal (policy.withViolations out) with
              | .error err =>
                (ProcessViolation b info t).1 = some err ∧
                  (ProcessViolation b info t).2.patchPolicyCalls = t.patchPolicyCalls
              | .ok modifiedData =>
                match b.CreateMergePatch originalData modifiedData with
                | .error err =>
                  (ProcessViolation b info t).1 = some err ∧
                    (ProcessViolation b info t).2.patchPolicyCalls = t.patchPolicyCalls
                | .ok patchBytes =>
                  (ProcessViolation b info t).1 = b.PatchPolicy policy.Name patchBytes ∧
                    (ProcessViolation b info t).2.patchPolicyCalls =
                      t.patchPolicyCalls ++ [(policy.Name, patchBytes)])) ∧
      ((ProcessViolation b info t).1 ≠ none ↔
        (∃ err, b.GetPolicy info.Policy = .error err) ∨
          ∃ policy updatedPolicy,
            (ProcessViolation b info t).2.patches = t.patches ++ [(policy, updatedPolicy)] ∧
              (Patch b policy updatedPolicy t).1 ≠ none) ∧
      ((ProcessViolation b info t).1 = none ↔
        ∃ policy updatedPolicy originalData modifiedData patchBytes,
          b.GetPolicy info.Policy = .ok policy ∧
            (ProcessViolation b info t).2.patches = t.patches ++ [(policy, updatedPolicy)] ∧
            b.Marshal policy = .ok originalData ∧
            b.Marshal updatedPolicy = .ok modifiedData ∧
            b.CreateMergePatch originalData modifiedData = .ok patchBytes ∧
            b.PatchPolicy policy.Name patchBytes = none) ∧
      Create b info t = ProcessViolation b info t := by
  refine ⟨?_, ?_, ?_, Create_eq b info t⟩
  · cases hget : b.GetPolicy info.Policy with
    | error err =>
      rw [ProcessViolation_error b info t err hget]
      exact ⟨rfl, rfl, rfl, rfl⟩
    | ok policy =>
      obtain ⟨out, h1, h2⟩ := ProcessViolation_patches b info t policy hget
      obtain ⟨out1, t1, k1, k2, k3⟩ := ProcessViolation_apply b info t policy hget
      have hout : out1 = out := by
        have hp := (Patch_frame b policy (policy.withViolations out1) t1).2.2
        rw [← k1, h1, k3] at hp
        have heq := List.append_cancel_left hp
        simp only [List.cons.injEq, Prod.mk.injEq, true_and, and_true] at heq
        have := congrArg (fun p => p.PolicyViolation.Violations) heq
        simpa [Policy.withViolations] using this.symm
      subst hout
      refine ⟨out1, h1, h2, ?_⟩
      simp only [k1]
      cases hm1 : b.Marshal policy with
      | error err => simp [Patch, hm1, k2]
      | ok originalData =>
        cases hm2 : b.Marshal (policy.withViolations out1) with
        | error err => simp [Patch, hm1, hm2, k2]
        | ok modifiedData =>
          cases hm3 : b.CreateMergePatch originalData modifiedData with
          | error err => simp [Patch, hm1, hm2, hm3, k2]
          | ok patchBytes =>
            cases hm4 : b.PatchPolicy policy.Name patchBytes <;>
              simp [Patch, hm1, hm2, hm3, hm4, k2]
  · cases hget : b.GetPolicy info.Policy with
    | error err =>
      rw [ProcessViolation_error b info t err hget]
      simp
    | ok policy =>
      obtain ⟨out, h1, h2⟩ := ProcessViolation_patches b info t policy hget
      constructor
      · intro hne
        exact Or.inr ⟨policy, policy.withViolations out, h1, by rw [← h2 t]; exact hne⟩
      · rintro (⟨err, herr⟩ | ⟨policy1, updatedPolicy, hp, hne⟩)
        · cases herr
        · rw [h1] at hp
          have heq := List.append_cancel_left hp
          simp only [List.cons.injEq, Prod.mk.injEq, and_true] at heq
          obtain ⟨rfl, rfl⟩ := heq
          rw [h2 t]
          exact hne
  · cases hget : b.GetPolicy info.Policy with
    | error err =>
      rw [ProcessViolation_error b info t err hget]
      simp
    | ok policy =>
      obtain ⟨out, h1, h2⟩ := ProcessViolation_patches b info t policy hget
      rw [h1, h2 t]
      constructor
      · intro hnone
        refine ⟨policy, policy.withViolations out, ?_⟩
        unfold Patch at hnone
        cases hm1 : b.Marshal policy with
        | error err => simp [hm1] at hnone
        | ok originalData =>
          cases hm2 : b.Marshal (policy.withViolations out) with
          | error err => simp [hm1, hm2] at hnone
          | ok modifiedData =>
            cases hm3 : b.CreateMergePatch originalData modifiedData with
            | error err => simp [hm1, hm2, hm3] at hnone
            | ok patchBytes =>
              cases hm4 : b.PatchPolicy policy.Name patchBytes with
              | some err => simp [hm1, hm2, hm3, hm4] at hnone
              | none =>
                refine ⟨originalData, modifiedData, patchBytes, ?_, rfl, ?_, ?_, ?_, ?_⟩ <;>
                  first | rfl | assumption
      · rintro ⟨policy1, updatedPolicy, originalData, modifiedData, patchBytes, hp, hpatches,
          hm1, hm2, hm3, hm4⟩
        cases hp
        have heq := List.append_cancel_left hpatches
        simp only [List.cons.injEq, Prod.mk.injEq, true_and, and_true] at heq
        subst heq
        simp [Patch, hm1, hm2, hm3, hm4]

/-- An instance of C7 where the store rejects the patch: `PatchPolicy` fails
with `conflict`, and `ProcessViolation` and `Create` return that error after
the one `PatchPolicy` call; and one where `json.Marshal` fails, with no
`PatchPolicy` call. -/
theorem apply_errors_on_samples :
    (ProcessViolation (rejectingBuilder [sampleStored] [("Pod", "ns/a")]) sampleInfo
        Trace.empty).1 = some "conflict" ∧
      (Create (rejectingBuilder [sampleStored] [("Pod", "ns/a")]) sampleInfo
        Trace.empty).1 = some "conflict" ∧
      (ProcessViolation (rejectingBuilder [sampleStored] [("Pod", "ns/a")]) sampleInfo
        Trace.empty).2.patchPolicyCalls.length = 1 ∧
      (ProcessViolation (unmarshalableBuilder [sampleStored] [("Pod", "ns/a")]) sampleInfo
        Trace.empty).1 = some "unsupported value" ∧
      (ProcessViolation (unmarshalableBuilder [sampleStored] [("Pod", "ns/a")]) sampleInfo
        Trace.empty).2.patchPolicyCalls = [] ∧
      (ProcessViolation (sampleBuilder [sampleStored] [("Pod", "ns/a")]) sampleInfo
        Trace.empty).1 = none := by
  decide

/-- C6, as the code has it: when `GetPolicy` returns a policy with at least one
entry and `GetResource` fails with `err` for the kind and resource of `info`,
`err` is given to `utilruntime.HandleError` (after the message of `IsActive`,
once per stored entry), no event is added, every entry is skipped, `Patch` is
called with the empty list and `ProcessViolation` returns what `Patch`
returns. -/
theorem lookup_failure_logged_and_skipped (b : Collaborators) (info : ViolationInfo)
    (t : Trace) (policy : Policy) (err : Err)
    (hget : b.GetPolicy info.Policy = .ok policy)
    (hne : policy.PolicyViolation.Violations ≠ [])
    (hres : b.GetResource info.Kind info.Resource = some err) :
    (ProcessViolation b info t).2.handled = t.handled ++
        policy.PolicyViolation.Violations.flatMap
          (fun _ => ["unable to get resource " ++ info.Resource ++ " ", err]) ∧
      err ∈ (ProcessViolation b info t).2.handled ∧
      (ProcessViolation b info t).2.events = t.events ∧
      (ProcessViolation b info t).2.handed = t.handed ++ [[]] ∧
      ∀ t1, (ProcessViolation b info t).1 =
        (Patch b policy (policy.withViolations []) t1).1 := by
  obtain ⟨h1, h2, h3, h4⟩ := ProcessViolation_failing b info t policy err hget hres
  refine ⟨h4, ?_, h3, h2, fun t1 => ?_⟩
  · rw [h4]
    cases hv : policy.PolicyViolation.Violations with
    | nil => exact absurd hv hne
    | cons v rest => simp
  · rw [h1]
    exact Patch_fst b policy _ t t1

/-- An instance of C6 as the code has it: the running example with `ns/a` missing. -/
theorem lookup_failure_logged_and_skipped_witness :
    (sampleBuilder [sampleStored] []).GetPolicy sampleInfo.Policy =
        .ok (samplePolicy [sampleStored]) ∧
      (samplePolicy [sampleStored]).PolicyViolation.Violations ≠ [] ∧
      (sampleBuilder [sampleStored] []).GetResource sampleInfo.Kind sampleInfo.Resource =
        some "resource not found" ∧
      (ProcessViolation (sampleBuilder [sampleStored] []) sampleInfo Trace.empty).2.handled =
        Trace.empty.handled ++
          (samplePolicy [sampleStored]).PolicyViolation.Violations.flatMap
            (fun _ => ["unable to get resource " ++ sampleInfo.Resource ++ " ",
              "resource not found"]) ∧
      "resource not found" ∈
        (ProcessViolation (sampleBuilder [sampleStored] []) sampleInfo Trace.empty).2.handled ∧
      (ProcessViolation (sampleBuilder [sampleStored] []) sampleInfo Trace.empty).2.events =
        Trace.empty.events ∧
      (ProcessViolation (sampleBuilder [sampleStored] []) sampleInfo Trace.empty).2.handed =
        Trace.empty.handed ++ [[]] ∧
      ∀ t1, (ProcessViolation (sampleBuilder [sampleStored] []) sampleInfo Trace.empty).1 =
        (Patch (sampleBuilder [sampleStored] []) (samplePolicy [sampleStored])
          ((samplePolicy [sampleStored]).withViolations []) t1).1 :=
  ⟨rfl, by decide, rfl,
    lookup_failure_logged_and_skipped (sampleBuilder [sampleStored] []) sampleInfo Trace.empty
      (samplePolicy [sampleStored]) "resource not found" rfl (by decide) rfl⟩

/-- C6 fails as stated: on the running example with `ns/a` missing, the lookup
made for the one stored entry fails, yet `ProcessViolation` returns `nil`,
having dropped the entry and sent the patch to `PatchPolicy`. -/
theorem lookup_failure_not_surfaced :
    (samplePolicy [sampleStored]).PolicyViolation.Violations.length = 1 ∧
      (IsActive (sampleBuilder [sampleStored] []) sampleInfo.Kind sampleInfo.Resource
        Trace.empty).1 = (false, some "resource not found") ∧
      (ProcessViolation (sampleBuilder [sampleStored] []) sampleInfo Trace.empty).1 = none ∧
      (ProcessViolation (sampleBuilder [sampleStored] []) sampleInfo Trace.empty).2.handed =
        [[]] ∧
      (ProcessViolation (sampleBuilder [sampleStored] []) sampleInfo
        Trace.empty).2.patchPolicyCalls.length = 1 := by
  decide

/-- C2 at a failing input: the stored list holds one entry for `(Pod, ns/b,
rule2)`, the report is for `(Pod, ns/a, rule1)` and both resources exist; the
call succeeds and hands `Patch` the stored list unchanged, of length 1, without
a violation built from the report. -/
theorem no_insertion_on_sample :
    sampleOther.key ≠ (sampleInfo.Kind, sampleInfo.Resource, sampleInfo.Rule) ∧
      (ProcessViolation (sampleBuilder [sampleOther] [("Pod", "ns/a"), ("Pod", "ns/b")])
        sampleInfo Trace.empty).1 = none ∧
      (ProcessViolation (sampleBuilder [sampleOther] [("Pod", "ns/a"), ("Pod", "ns/b")])
        sampleInfo Trace.empty).2.handed = [[sampleOther]] ∧
      sampleInfo.toViolation ∉ [sampleOther] ∧
      (ProcessViolation (sampleBuilder [] [("Pod", "ns/a")]) sampleInfo
        Trace.empty).2.handed = [[]] := by
  decide

/-- C3 at two failing inputs. On the running example with `ns/a` missing the
call succeeds with the empty list and no event at all. With a stored entry for
the missing `ns/b` and a report for the present `ns/a`, the call succeeds and
the stale entry is still in the list handed to `Patch`, again with no event. -/
theorem no_pruning_event_on_sample :
    ((ProcessViolation (sampleBuilder [sampleStored] []) sampleInfo Trace.empty).1 = none ∧
      (ProcessViolation (sampleBuilder [sampleStored] []) sampleInfo Trace.empty).2.handed =
        [[]] ∧
      (ProcessViolation (sampleBuilder [sampleStored] []) sampleInfo Trace.empty).2.events =
        []) ∧
      ((sampleBuilder [sampleOther] [("Pod", "ns/a")]).GetResource sampleOther.Kind
          sampleOther.Resource = some "resource not found" ∧
        (ProcessViolation (sampleBuilder [sampleOther] [("Pod", "ns/a")]) sampleInfo
          Trace.empty).1 = none ∧
        (ProcessViolation (sampleBuilder [sampleOther] [("Pod", "ns/a")]) sampleInfo
          Trace.empty).2.handed = [[sampleOther]] ∧
        (ProcessViolation (sampleBuilder [sampleOther] [("Pod", "ns/a")]) sampleInfo
          Trace.empty).2.events = []) := by
  decide

end ViolationBuilder
